import Mathlib

/-!
# Verification of `utils/utils.go` (cli-plugin-diego)

A shallow embedding of the package `utils`: the ten operations of the `Utils`
interface, written against an abstract `plugin.CliConnection`.

Modelling conventions

* A Go `string` is a Lean `String` (a sequence of code points: the strings that
  reach the operations are valid UTF-8, on which the byte-wise functions of the
  Go package `strings` agree with the code-point-wise ones below).
* A Go `[]string` is a `List String`; the `nil` slice and the empty slice are
  both `[]`.
* A Go `error` is an `Option GoError`, `none` being `nil`.
* The connection is stateful: each method takes the state of the outside world
  and returns the captured lines, the error and the next state.
* Indexing a slice out of range panics; an operation therefore yields an
  `Outcome`, either `ret v` or `indexOutOfRange i len`.
-/

namespace utils

/-! ## The Go package `strings` -/

/-- Go `unicode.IsSpace`: the Latin-1 spaces and the code points with the
Unicode White_Space property. -/
def isSpace (c : Char) : Bool :=
  let n := c.toNat
  n = 0x09 || n = 0x0A || n = 0x0B || n = 0x0C || n = 0x0D || n = 0x20 ||
  n = 0x85 || n = 0xA0 || n = 0x1680 || (0x2000 ≤ n && n ≤ 0x200A) ||
  n = 0x2028 || n = 0x2029 || n = 0x202F || n = 0x205F || n = 0x3000

/-- Does `s` contain `sub` as a contiguous run (on lists of characters). -/
def containsChars : List Char → List Char → Bool
  | [], sub => sub.isPrefixOf []
  | c :: s, sub => sub.isPrefixOf (c :: s) || containsChars s sub

/-- Go `strings.Contains`. -/
def Contains (s substr : String) : Bool :=
  containsChars s.data substr.data

/-- Go `strings.HasPrefix`. -/
def HasPrefix (s pre : String) : Bool :=
  pre.data.isPrefixOf s.data

/-- Go `strings.HasSuffix`. -/
def HasSuffix (s suf : String) : Bool :=
  suf.data.isSuffixOf s.data

/-- Go `strings.TrimPrefix`: `s` without the leading `pre`, or `s` itself. -/
def TrimPrefix (s pre : String) : String :=
  if HasPrefix s pre then ⟨s.data.drop pre.data.length⟩ else s

/-- Go `strings.TrimSuffix`: `s` without the trailing `suf`, or `s` itself. -/
def TrimSuffix (s suf : String) : String :=
  if HasSuffix s suf then ⟨s.data.take (s.data.length - suf.data.length)⟩ else s

/-- Leading and trailing white space removed from a list of characters. -/
def trimSpaceChars (l : List Char) : List Char :=
  ((l.dropWhile isSpace).reverse.dropWhile isSpace).reverse

/-- Go `strings.TrimSpace`. -/
def TrimSpace (s : String) : String :=
  ⟨trimSpaceChars s.data⟩

/-! ## Values exchanged with the caller and with the connection -/

/-- A Go `error` value, by where it was made. Go compares errors by identity, so
an error made by `errors.New` is never the error the connection returned, even
when both carry the same message; the constructors keep that distinction. -/
inductive GoError where
  /-- `errors.New(msg)` in this package. -/
  | new (msg : String)
  /-- The error a method of `plugin.CliConnection` returned, passed on as is. -/
  | cli (msg : String)
  /-- The error `json.Unmarshal` returned, passed on as is. -/
  | json (msg : String)
  deriving DecidableEq, Repr

/-- What a method of the connection returns: the captured lines and the error
(`none` for `nil`, `some msg` for an error with that message). -/
abbrev Reply := List String × Option String

/-- Go `plugin.CliConnection`, the two methods the package calls. Both take the
arguments of the command and the state of the outside world, and return the
reply and the next state. -/
structure CliConnection (σ : Type) where
  CliCommand : List String → σ → Reply × σ
  CliCommandWithoutTerminalOutput : List String → σ → Reply × σ

/-- The result of running an operation: it returns, or it panics on an index
out of range. -/
inductive Outcome (α : Type) where
  | ret (v : α)
  | indexOutOfRange (index len : Nat)
  deriving DecidableEq, Repr

/-- Go `s[i]` on a slice of strings: the element, or the run-time panic. -/
def index (s : List String) (i : Nat) : Outcome String :=
  match s[i]? with
  | some x => .ret x
  | none => .indexOutOfRange i s.length

/-- `type Route struct`. -/
structure Route where
  Guid : String
  deriving DecidableEq, Repr

/-- `type AppSummary struct`. -/
structure AppSummary where
  HealthCheckType : String
  Routes : List Route
  deriving DecidableEq, Repr

/-- Go `json.Unmarshal([]byte(line), &summary)` on a zero `AppSummary`: the
decoded summary, or the message of the decoder's error. The package
`encoding/json` is a library outside this repository, so the operations take
the decoder as an argument. -/
abbrev Unmarshal := String → Except String AppSummary

/-- `type utils struct`, with the JSON decoder the package links against. -/
structure Utils (σ : Type) where
  cli : CliConnection σ
  unmarshal : Unmarshal

/-- The three results of the look-up operations, in the order
`(value, error, lines)`. -/
abbrev Lookup := String × Option GoError × List String

/-! ## The operations -/

/-- `func (u *utils) GetAppGuid(appName string) (string, error, []string)`. -/
def GetAppGuid {σ : Type} (u : Utils σ) (appName : String) (w : σ) :
    Outcome Lookup × σ :=
  match u.cli.CliCommandWithoutTerminalOutput ["app", appName, "--guid"] w with
  | ((result, some err), w1) =>
    match index result 0 with
    | .indexOutOfRange i n => (.indexOutOfRange i n, w1)
    | .ret r0 =>
      if Contains r0 "FAILED" then
        (.ret ("", some (.new ("App " ++ appName ++ " not found.")), result), w1)
      else
        (.ret ("", some (.cli err), result), w1)
  | ((result, none), w1) =>
    match index result 0 with
    | .indexOutOfRange i n => (.indexOutOfRange i n, w1)
    | .ret r0 => (.ret (TrimSpace r0, none, []), w1)

/-- `func (u *utils) GetTargetSpace() (string, error, []string)`. The last
`return` of the Go body follows an `if`/`else` whose branches both return, so
it is never reached and has no counterpart here. -/
def GetTargetSpace {σ : Type} (u : Utils σ) (w : σ) : Outcome Lookup × σ :=
  match u.cli.CliCommandWithoutTerminalOutput ["target"] w with
  | ((output, some err), w1) => (.ret ("", some (.cli err), output), w1)
  | ((output, none), w1) =>
    if output.length < 5 then
      (.ret ("", some (.new "Currently not targeted"), output), w1)
    else
      match index output 4 with
      | .indexOutOfRange i n => (.indexOutOfRange i n, w1)
      | .ret o4 =>
        if HasPrefix o4 "Space:" && !Contains o4 "No space targeted" then
          let space := TrimPrefix (TrimSpace o4) "Space:"
          (.ret (TrimSpace space, none, []), w1)
        else
          (.ret ("", some (.new "Currently not targeted"), output), w1)

/-- `func (u *utils) GetSpaceGuid(spaceName string) (string, error, []string)`. -/
def GetSpaceGuid {σ : Type} (u : Utils σ) (spaceName : String) (w : σ) :
    Outcome Lookup × σ :=
  match u.cli.CliCommandWithoutTerminalOutput ["space", spaceName, "--guid"] w with
  | ((output, some err), w1) =>
    match index output 0 with
    | .indexOutOfRange i n => (.indexOutOfRange i n, w1)
    | .ret o0 =>
      if Contains o0 "FAILED" then
        (.ret ("", some (.new "Getting space guid..."), output), w1)
      else
        (.ret ("", some (.cli err), output), w1)
  | ((output, none), w1) =>
    match index output 0 with
    | .indexOutOfRange i n => (.indexOutOfRange i n, w1)
    | .ret o0 => (.ret (TrimSpace o0, none, []), w1)

/-- The reply of the connection as the pair a pass-through operation returns. -/
def passOn {σ : Type} (r : Reply × σ) : (List String × Option GoError) × σ :=
  ((r.1.1, r.1.2.map GoError.cli), r.2)

/-- `func (u *utils) CreateRoute(space, domain, host string) ([]string, error)`. -/
def CreateRoute {σ : Type} (u : Utils σ) (space domain host : String) (w : σ) :
    (List String × Option GoError) × σ :=
  passOn (u.cli.CliCommandWithoutTerminalOutput ["create-route", space, domain, "-n", host] w)

/-- `func (u *utils) FindDomain() (string, error, []string)`. -/
def FindDomain {σ : Type} (u : Utils σ) (w : σ) : Outcome Lookup × σ :=
  match u.cli.CliCommandWithoutTerminalOutput ["domains"] w with
  | ((output, some err), w1) => (.ret ("", some (.cli err), output), w1)
  | ((output, none), w1) =>
    if output.length < 3 then
      (.ret ("", some (.new "No domain available"), output), w1)
    else
      match index output 2 with
      | .indexOutOfRange i n => (.indexOutOfRange i n, w1)
      | .ret o2 =>
        let domain := TrimSuffix (TrimSpace o2) "shared"
        let domain := TrimSuffix domain "owned"
        (.ret (TrimSpace domain, none, []), w1)

/-- `func (u *utils) MapRoute(appName, domain, host string) ([]string, error)`. -/
def MapRoute {σ : Type} (u : Utils σ) (appName domain host : String) (w : σ) :
    (List String × Option GoError) × σ :=
  passOn (u.cli.CliCommandWithoutTerminalOutput ["map-route", appName, domain, "-n", host] w)

/-- `func (u *utils) StartApp(appName string) ([]string, error)`. -/
def StartApp {σ : Type} (u : Utils σ) (appName : String) (w : σ) :
    (List String × Option GoError) × σ :=
  passOn (u.cli.CliCommand ["start", appName] w)

/-- The message of the error `GetHealthCheck` makes when the marker is absent:
`fmt.Sprintf("%s\nJSON:\n", "'health_check_type' flag is not found in json response")`. -/
def flagNotFound : String :=
  "\x27health_check_type\x27 flag is not found in json response" ++ "\nJSON:\n"

/-- `func (u *utils) GetHealthCheck(appGuid string) (string, []string, error)`.
The results are in the order `(value, lines, error)`. -/
def GetHealthCheck {σ : Type} (u : Utils σ) (appGuid : String) (w : σ) :
    Outcome (String × List String × Option GoError) × σ :=
  match u.cli.CliCommandWithoutTerminalOutput ["curl", "/v2/apps/" ++ appGuid ++ "/summary"] w with
  | ((output, some err), w1) => (.ret ("", output, some (.cli err)), w1)
  | ((output, none), w1) =>
    match index output 0 with
    | .indexOutOfRange i n => (.indexOutOfRange i n, w1)
    | .ret o0 =>
      if !Contains o0 "\"health_check_type\": " then
        (.ret ("", output, some (.new flagNotFound)), w1)
      else
        match u.unmarshal o0 with
        | .error e => (.ret ("", output, some (.json e)), w1)
        | .ok summary => (.ret (summary.HealthCheckType, [], none), w1)

/-- The arguments of the call that deletes the binding of one route. -/
def deleteArgs (appGuid : String) (route : Route) : List String :=
  ["curl", "/v2/routes/" ++ route.Guid ++ "/apps/" ++ appGuid, "-X", "DELETE"]

/-- The loop `for _, route := range summary.Routes` of `DetachAppRoutes`, with
the `return nil, nil` that follows it. -/
def detachLoop {σ : Type} (u : Utils σ) (appGuid : String) :
    List Route → σ → (List String × Option GoError) × σ
  | [], w => (([], none), w)
  | route :: rest, w =>
    match u.cli.CliCommandWithoutTerminalOutput (deleteArgs appGuid route) w with
    | ((output, some err), w1) => ((output, some (.cli err)), w1)
    | ((_, none), w1) => detachLoop u appGuid rest w1

/-- `func (u *utils) DetachAppRoutes(appGuid string) ([]string, error)`. -/
def DetachAppRoutes {σ : Type} (u : Utils σ) (appGuid : String) (w : σ) :
    Outcome (List String × Option GoError) × σ :=
  match u.cli.CliCommandWithoutTerminalOutput ["curl", "/v2/apps/" ++ appGuid ++ "/summary"] w with
  | ((output, some err), w1) => (.ret (output, some (.cli err)), w1)
  | ((output, none), w1) =>
    match index output 0 with
    | .indexOutOfRange i n => (.indexOutOfRange i n, w1)
    | .ret o0 =>
      match u.unmarshal o0 with
      | .error e => (.ret (output, some (.json e)), w1)
      | .ok summary =>
        let r := detachLoop u appGuid summary.Routes w1
        (.ret r.1, r.2)

/-- `func (u *utils) UpdateApp(appGuid, field, value string) ([]string, error)`. -/
def UpdateApp {σ : Type} (u : Utils σ) (appGuid field value : String) (w : σ) :
    (List String × Option GoError) × σ :=
  passOn (u.cli.CliCommandWithoutTerminalOutput
    ["curl", "/v2/apps/" ++ appGuid, "-X", "PUT", "-d",
      "\x7b\"" ++ field ++ "\":\"" ++ value ++ "\"\x7d"] w)

/-! ## Observing the calls an operation issues -/

/-- One call on the connection: the method and the arguments. -/
structure Call where
  /-- Is it `CliCommand` (terminal output shown), not
  `CliCommandWithoutTerminalOutput`. -/
  terminalOutput : Bool
  args : List String
  deriving DecidableEq, Repr

/-- A connection that behaves as `c` and appends every call to a log kept next
to the state of `c`. -/
def recording {σ : Type} (c : CliConnection σ) : CliConnection (σ × List Call) where
  CliCommand args w :=
    ((c.CliCommand args w.1).1, ((c.CliCommand args w.1).2, w.2 ++ [⟨true, args⟩]))
  CliCommandWithoutTerminalOutput args w :=
    ((c.CliCommandWithoutTerminalOutput args w.1).1,
      ((c.CliCommandWithoutTerminalOutput args w.1).2, w.2 ++ [⟨false, args⟩]))

/-- The operations over the recording connection. -/
def spy {σ : Type} (u : Utils σ) : Utils (σ × List Call) :=
  ⟨recording u.cli, u.unmarshal⟩

/-! ## A scripted connection and a JSON decoder for the examples -/

/-- A connection that hands out the replies of a script in order, whatever the
call; once the script is used up it replies with no lines and no error. -/
def scripted : CliConnection (List Reply) where
  CliCommand _ w := (w.headD ([], none), w.tail)
  CliCommandWithoutTerminalOutput _ w := (w.headD ([], none), w.tail)

/-- A JSON value. -/
inductive JsonValue where
  | null
  | bool (b : Bool)
  | number (text : List Char)
  | string (s : List Char)
  | array (items : List JsonValue)
  | object (members : List (List Char × JsonValue))

/-- The input without its leading JSON white space. -/
def skipWs : List Char → List Char
  | [] => []
  | c :: cs => if c = ' ' ∨ c = '\t' ∨ c = '\n' ∨ c = '\r' then skipWs cs else c :: cs

/-- The characters of a JSON string up to its closing quote, and the rest of the
input; the opening quote has been read. A backslash or a control character
ends the scan without a result. -/
def scanString : List Char → Option (List Char × List Char)
  | [] => none
  | c :: cs =>
    if c = '"' then some ([], cs)
    else if c = '\\' ∨ c.toNat < 0x20 then none
    else match scanString cs with
      | some (s, r) => some (c :: s, r)
      | none => none

/-- The leading decimal digits of the input, and the rest. -/
def scanDigits : List Char → List Char × List Char
  | [] => ([], [])
  | c :: cs =>
    if c.isDigit then ((scanDigits cs).1.cons c, (scanDigits cs).2) else ([], c :: cs)

/-- A JSON integer without sign: `0`, or digits that do not start with `0`. -/
def scanNumber (cs : List Char) : Option (List Char × List Char) :=
  match scanDigits cs with
  | ([], _) => none
  | (['0'], r) => some (['0'], r)
  | ('0' :: _, _) => none
  | (ds, r) => some (ds, r)

mutual
/-- One JSON value read from the front of the input, and the rest of the input.
The first argument bounds the depth of the calls. -/
def parseValue : Nat → List Char → Option (JsonValue × List Char)
  | 0, _ => none
  | fuel + 1, cs =>
    match skipWs cs with
    | '"' :: r =>
      match scanString r with
      | some (s, r1) => some (.string s, r1)
      | none => none
    | '[' :: r =>
      match skipWs r with
      | ']' :: r1 => some (.array [], r1)
      | _ =>
        match parseItems fuel r with
        | some (l, r1) => some (.array l, r1)
        | none => none
    | '{' :: r =>
      match skipWs r with
      | '}' :: r1 => some (.object [], r1)
      | _ =>
        match parseMembers fuel r with
        | some (l, r1) => some (.object l, r1)
        | none => none
    | 't' :: 'r' :: 'u' :: 'e' :: r => some (.bool true, r)
    | 'f' :: 'a' :: 'l' :: 's' :: 'e' :: r => some (.bool false, r)
    | 'n' :: 'u' :: 'l' :: 'l' :: r => some (.null, r)
    | '-' :: r =>
      match scanNumber r with
      | some (ds, r1) => some (.number ('-' :: ds), r1)
      | none => none
    | r =>
      match scanNumber r with
      | some (ds, r1) => some (.number ds, r1)
      | none => none
/-- The items of a JSON array up to its closing bracket. -/
def parseItems : Nat → List Char → Option (List JsonValue × List Char)
  | 0, _ => none
  | fuel + 1, cs =>
    match parseValue fuel cs with
    | none => none
    | some (v, r) =>
      match skipWs r with
      | ',' :: r1 =>
        match parseItems fuel r1 with
        | some (l, r2) => some (v :: l, r2)
        | none => none
      | ']' :: r1 => some ([v], r1)
      | _ => none
/-- The members of a JSON object up to its closing brace. -/
def parseMembers : Nat → List Char → Option (List (List Char × JsonValue) × List Char)
  | 0, _ => none
  | fuel + 1, cs =>
    match skipWs cs with
    | '"' :: r =>
      match scanString r with
      | none => none
      | some (k, r1) =>
        match skipWs r1 with
        | ':' :: r2 =>
          match parseValue fuel r2 with
          | none => none
          | some (v, r3) =>
            match skipWs r3 with
            | ',' :: r4 =>
              match parseMembers fuel r4 with
              | some (l, r5) => some ((k, v) :: l, r5)
              | none => none
            | '}' :: r4 => some ([(k, v)], r4)
            | _ => none
        | _ => none
    | _ => none
end

/-- The value of the member with key `k`. -/
def lookupKey (k : List Char) : List (List Char × JsonValue) → Option JsonValue
  | [] => none
  | (k1, v) :: rest => if k1 = k then some v else lookupKey k rest

/-- Is the key made of lower-case ASCII letters, digits and `_` only. -/
def plainKey (k : List Char) : Bool :=
  k.all fun c => c.isLower || c.isDigit || c = '_'

/-- A JSON object as a `Route`: the field `guid`. -/
def decodeRoute : JsonValue → Option Route
  | .object members =>
    if members.all (fun m => plainKey m.1) && (members.map Prod.fst).Nodup then
      match lookupKey "guid".data members with
      | none => some ⟨""⟩
      | some (.string g) => some ⟨⟨g⟩⟩
      | some _ => none
    else none
  | _ => none

/-- A JSON array as a slice of `Route`. -/
def decodeRoutes : List JsonValue → Option (List Route)
  | [] => some []
  | v :: vs =>
    match decodeRoute v, decodeRoutes vs with
    | some r, some rs => some (r :: rs)
    | _, _ => none

/-- A JSON object as an `AppSummary`: the fields `health_check_type` and
`routes`, the other members ignored. -/
def decodeSummary : JsonValue → Option AppSummary
  | .object members =>
    if members.all (fun m => plainKey m.1) && (members.map Prod.fst).Nodup then
      match
        (match lookupKey "health_check_type".data members with
          | none => some ""
          | some (.string t) => some ⟨t⟩
          | some _ => none),
        (match lookupKey "routes".data members with
          | none => some []
          | some (.array items) => decodeRoutes items
          | some _ => none) with
      | some t, some rs => some ⟨t, rs⟩
      | _, _ => none
    else none
  | _ => none

/-- A decoder for a fragment of JSON, used for `json.Unmarshal` in the concrete
examples. The fragment: objects whose keys are plain and distinct, arrays,
strings without escapes, integers, `true`, `false`, `null`; the field
`health_check_type` a string, the field `routes` an array of objects, the field
`guid` a string. A text outside the fragment is rejected with an error, so the
decoder never returns a summary that differs from the one of `encoding/json`. -/
def sampleUnmarshal : Unmarshal := fun line =>
  match parseValue (2 * line.data.length + 2) line.data with
  | none => .error "invalid character"
  | some (v, r) =>
    match skipWs r with
    | [] =>
      match decodeSummary v with
      | some s => .ok s
      | none => .error "cannot unmarshal"
    | _ :: _ => .error "invalid character after top-level value"


/-- The package over the scripted connection and the decoder above. -/
def sample : Utils (List Reply) :=
  ⟨scripted, sampleUnmarshal⟩

/-- The summary payload without white space. -/
def compactPayload : String :=
  "\x7b\"health_check_type\":\"http\",\"routes\":[\x7b\"guid\":\"r1\"\x7d,\x7b\"guid\":\"r2\"\x7d]\x7d"

/-- The summary payload with a space after each colon. -/
def spacedPayload : String :=
  "\x7b\"health_check_type\": \"http\", \"routes\": [\x7b\"guid\": \"r1\"\x7d, \x7b\"guid\": \"r2\"\x7d]\x7d"

/-- The log `log2` extends the log `log1` by calls without terminal output
only. -/
def Quiet (log1 log2 : List Call) : Prop :=
  ∃ calls : List Call, log2 = log1 ++ calls ∧ ∀ c ∈ calls, c.terminalOutput = false

/-- The call that deletes the binding of one route, as it appears in the log. -/
def deleteCall (appGuid : String) (route : Route) : Call :=
  ⟨false, deleteArgs appGuid route⟩

/-- The state of the outside world after the delete calls for `routes`, in
order, from the state `w`. -/
def afterDeletes {σ : Type} (u : Utils σ) (appGuid : String) : List Route → σ → σ
  | [], w => w
  | r :: rs, w =>
    afterDeletes u appGuid rs (u.cli.CliCommandWithoutTerminalOutput (deleteArgs appGuid r) w).2

/-- Do the delete calls for `routes`, issued in order from the state `w`, all
come back without an error. -/
def DeletesSucceed {σ : Type} (u : Utils σ) (appGuid : String) : List Route → σ → Prop
  | [], _ => True
  | r :: rs, w =>
    (u.cli.CliCommandWithoutTerminalOutput (deleteArgs appGuid r) w).1.2 = none ∧
    DeletesSucceed u appGuid rs (u.cli.CliCommandWithoutTerminalOutput (deleteArgs appGuid r) w).2

/-- The error surface of a look-up: no error and no lines, or an error with the
zero value and the lines `raw` captured from the connection. -/
def ErrorSurface (raw : List String) (v : String) (e : Option GoError) (l : List String) : Prop :=
  (e = none ∧ l = []) ∨ (e ≠ none ∧ v = "" ∧ l = raw)

/-! ## Indexing -/

theorem index_nil (i : Nat) : index [] i = .indexOutOfRange i 0 := rfl

theorem index_cons_zero (x : String) (xs : List String) : index (x :: xs) 0 = .ret x := by
  simp [index]

theorem index_of_lt (s : List String) (i : Nat) (h : i < s.length) :
    index s i = .ret (s.get ⟨i, h⟩) := by
  simp [index, List.getElem?_eq_getElem h]

/-! ## Facts about the string functions -/

theorem containsChars_iff (s sub : List Char) : containsChars s sub = true ↔ sub <:+: s := by
  induction s with
  | nil => simp [containsChars]
  | cons c s ih => simp [containsChars, List.infix_cons_iff, ih]

theorem Contains_iff (s substr : String) : Contains s substr = true ↔ substr.data <:+: s.data :=
  containsChars_iff s.data substr.data

theorem HasPrefix_iff (s pre : String) : HasPrefix s pre = true ↔ pre.data <+: s.data := by
  simp [HasPrefix]

theorem HasSuffix_iff (s suf : String) : HasSuffix s suf = true ↔ suf.data <:+ s.data := by
  simp [HasSuffix]

/-- A run that starts with `c` and lies inside `a ++ b`, where `c` does not occur
in `a`, lies inside `b`. -/
theorem infix_of_head_not_mem (c : Char) (p a b : List Char) (hc : c ∉ a)
    (h : c :: p <:+: a ++ b) : c :: p <:+: b := by
  induction a with
  | nil => simpa using h
  | cons x a ih =>
    rw [List.cons_append, List.infix_cons_iff] at h
    rcases h with h | h
    · rw [List.cons_prefix_cons] at h
      exact absurd (h.1 ▸ List.mem_cons_self x a) hc
    · exact ih (fun hm => hc (List.mem_cons_of_mem x hm)) h

/-- A run that ends with `c` and lies inside `b ++ a`, where `c` does not occur
in `a`, lies inside `b`. -/
theorem infix_of_last_not_mem (c : Char) (p a b : List Char) (hc : c ∉ a)
    (h : p ++ [c] <:+: b ++ a) : p ++ [c] <:+: b := by
  have h1 : c :: p.reverse <:+: a.reverse ++ b.reverse := by
    have := List.reverse_infix.mpr h
    simpa using this
  have h2 := infix_of_head_not_mem c p.reverse a.reverse b.reverse (by simpa using hc) h1
  have h3 := List.reverse_infix.mpr h2
  simpa using h3

theorem dropWhile_all (ws : List Char) (h : ∀ c ∈ ws, isSpace c = true) :
    ws.dropWhile isSpace = [] := by
  simpa using h

/-- `strings.TrimSpace` on a core `l` that neither starts nor ends with white
space, padded with white space on both sides, yields the core. -/
theorem trimSpaceChars_padded (ws1 l ws2 : List Char)
    (h1 : ∀ c ∈ ws1, isSpace c = true) (h2 : ∀ c ∈ ws2, isSpace c = true)
    (hhead : ∀ c, l.head? = some c → isSpace c = false)
    (hlast : ∀ c, l.getLast? = some c → isSpace c = false) :
    trimSpaceChars (ws1 ++ l ++ ws2) = l := by
  unfold trimSpaceChars
  rw [List.append_assoc, List.dropWhile_append_of_pos h1]
  cases l with
  | nil => simp [dropWhile_all ws2 h2]
  | cons a l =>
    have ha : ¬ isSpace a = true := by simp [hhead a rfl]
    rw [List.cons_append, List.dropWhile_cons_of_neg ha, ← List.cons_append, List.reverse_append,
      List.dropWhile_append_of_pos (by simpa using h2)]
    cases hr : (a :: l).reverse with
    | nil => simp at hr
    | cons b t =>
      have hb : (a :: l).getLast? = some b := by
        rw [List.getLast?_eq_head?_reverse, hr]; rfl
      have hb2 : ¬ isSpace b = true := by simp [hlast b hb]
      rw [List.dropWhile_cons_of_neg hb2, ← hr, List.reverse_reverse]

/-! ## GetTargetSpace -/

theorem index_of_getElem? (s : List String) (i : Nat) (x : String) (h : s[i]? = some x) :
    index s i = .ret x := by
  simp [index, h]

theorem length_of_getElem? (s : List String) (i : Nat) (x : String) (h : s[i]? = some x) :
    i < s.length := by
  by_contra hlt
  rw [List.getElem?_eq_none (by omega)] at h
  cases h

/-- C4: when the connection reports no error, `GetTargetSpace` returns the empty
string, the error `Currently not targeted` and the captured lines if the output
has fewer than 5 lines, or its line at index 4 does not start with `Space:`, or
that line contains `No space targeted`; in every other case it returns a value
with no error and no lines. -/
theorem GetTargetSpace_notTargeted {σ : Type} (u : Utils σ) (w w1 : σ) (output : List String)
    (hcall : u.cli.CliCommandWithoutTerminalOutput ["target"] w = ((output, none), w1)) :
    ((output.length < 5 ∨ ∃ l4, output[4]? = some l4 ∧
        (¬ "Space:".data <+: l4.data ∨ "No space targeted".data <:+: l4.data)) →
      GetTargetSpace u w = (.ret ("", some (.new "Currently not targeted"), output), w1)) ∧
    (¬ (output.length < 5 ∨ ∃ l4, output[4]? = some l4 ∧
        (¬ "Space:".data <+: l4.data ∨ "No space targeted".data <:+: l4.data)) →
      ∃ v, GetTargetSpace u w = (.ret (v, none, []), w1)) := by
  refine ⟨fun hA => ?_, fun hA => ?_⟩
  · rcases hA with hlen | ⟨l4, hl4, hbad⟩
    · simp only [GetTargetSpace, hcall, if_pos hlen]
    · have hlen : ¬ output.length < 5 := by
        have := length_of_getElem? output 4 l4 hl4
        omega
      have hcond : ¬ (HasPrefix l4 "Space:" && !Contains l4 "No space targeted") = true := by
        intro h
        rw [Bool.and_eq_true, HasPrefix_iff, Bool.not_eq_true', ← Bool.not_eq_true,
          Contains_iff] at h
        rcases hbad with hb | hb
        · exact hb h.1
        · exact h.2 hb
      simp only [GetTargetSpace, hcall, if_neg hlen, index_of_getElem? output 4 l4 hl4,
        if_neg hcond]
  · have hlen : ¬ output.length < 5 := fun h => hA (Or.inl h)
    obtain ⟨l4, hl4⟩ : ∃ l4, output[4]? = some l4 :=
      ⟨output.get ⟨4, by omega⟩, by simp [List.getElem?_eq_getElem (show 4 < output.length by omega)]⟩
    have hcond : (HasPrefix l4 "Space:" && !Contains l4 "No space targeted") = true := by
      rw [Bool.and_eq_true, HasPrefix_iff, Bool.not_eq_true', ← Bool.not_eq_true, Contains_iff]
      constructor
      · by_contra hp
        exact hA (Or.inr ⟨l4, hl4, Or.inl hp⟩)
      · intro hc
        exact hA (Or.inr ⟨l4, hl4, Or.inr hc⟩)
    simp only [GetTargetSpace, hcall, if_neg hlen, index_of_getElem? output 4 l4 hl4,
      if_pos hcond]
    exact ⟨_, rfl⟩

theorem GetTargetSpace_notTargeted_witness :
    sample.cli.CliCommandWithoutTerminalOutput ["target"]
        [(["", "", "", "", "Space:  No space targeted"], none)]
      = ((["", "", "", "", "Space:  No space targeted"], none), []) ∧
    GetTargetSpace sample [(["", "", "", "", "Space:  No space targeted"], none)]
      = (.ret ("", some (.new "Currently not targeted"),
          ["", "", "", "", "Space:  No space targeted"]), []) :=
  ⟨rfl, (GetTargetSpace_notTargeted sample
      [(["", "", "", "", "Space:  No space targeted"], none)] []
      ["", "", "", "", "Space:  No space targeted"] rfl).1
    (Or.inr ⟨"Space:  No space targeted", rfl, Or.inr ⟨"Space:  ".data, [], rfl⟩⟩)⟩

theorem TrimPrefix_append (p x : List Char) : TrimPrefix ⟨p ++ x⟩ ⟨p⟩ = ⟨x⟩ := by
  have h : HasPrefix ⟨p ++ x⟩ ⟨p⟩ = true := (HasPrefix_iff _ _).mpr ⟨x, rfl⟩
  simp [TrimPrefix, h]

theorem TrimSpace_padded (ws1 l ws2 : List Char)
    (h1 : ∀ c ∈ ws1, isSpace c = true) (h2 : ∀ c ∈ ws2, isSpace c = true)
    (hhead : ∀ c, l.head? = some c → isSpace c = false)
    (hlast : ∀ c, l.getLast? = some c → isSpace c = false) :
    TrimSpace ⟨ws1 ++ l ++ ws2⟩ = ⟨l⟩ := by
  show (⟨trimSpaceChars (ws1 ++ l ++ ws2)⟩ : String) = ⟨l⟩
  rw [trimSpaceChars_padded ws1 l ws2 h1 h2 hhead hlast]

/-- The sentinel `No space targeted` inside `Space:`, white space, `name`, white
space lies inside `name`. -/
theorem sentinel_in_name (ws1 name ws2 : List Char)
    (h1 : ∀ c ∈ ws1, isSpace c = true) (h2 : ∀ c ∈ ws2, isSpace c = true)
    (h : "No space targeted".data <:+: "Space:".data ++ ws1 ++ name ++ ws2) :
    "No space targeted".data <:+: name := by
  have hN : 'N' ∉ "Space:".data ++ ws1 := by
    intro hm
    rcases List.mem_append.mp hm with hm | hm
    · revert hm; decide
    · have := h1 _ hm
      revert this; decide
  have hd : 'd' ∉ ws2 := by
    intro hm
    have := h2 _ hm
    revert this; decide
  have e1 : "No space targeted".data = 'N' :: "o space targeted".data := rfl
  have e2 : "No space targeted".data = "No space targete".data ++ ['d'] := rfl
  have h3 : "No space targeted".data <:+: name ++ ws2 := by
    rw [e1]
    apply infix_of_head_not_mem 'N' _ ("Space:".data ++ ws1) _ hN
    rw [← e1]
    simpa [List.append_assoc] using h
  rw [e2]
  apply infix_of_last_not_mem 'd' _ ws2 _ hd
  rw [← e2]
  exact h3

/-- C5: when the connection reports no error and the line at index 4 of the
output is `Space:`, then white space, then a name that neither starts nor ends
with white space and does not contain `No space targeted`, then white space,
`GetTargetSpace` returns exactly the name, with no error and no lines. -/
theorem GetTargetSpace_padded {σ : Type} (u : Utils σ) (w w1 : σ) (output : List String)
    (ws1 name ws2 : List Char)
    (hcall : u.cli.CliCommandWithoutTerminalOutput ["target"] w = ((output, none), w1))
    (hl4 : output[4]? = some ⟨"Space:".data ++ ws1 ++ name ++ ws2⟩)
    (hws1 : ∀ c ∈ ws1, isSpace c = true) (hws2 : ∀ c ∈ ws2, isSpace c = true)
    (hhead : ∀ c, name.head? = some c → isSpace c = false)
    (hlast : ∀ c, name.getLast? = some c → isSpace c = false)
    (hsent : ¬ "No space targeted".data <:+: name) :
    GetTargetSpace u w = (.ret (⟨name⟩, none, []), w1) := by
  have hlen : ¬ output.length < 5 := by
    have := length_of_getElem? output 4 _ hl4
    omega
  have hcond : (HasPrefix ⟨"Space:".data ++ ws1 ++ name ++ ws2⟩ "Space:" &&
      !Contains ⟨"Space:".data ++ ws1 ++ name ++ ws2⟩ "No space targeted") = true := by
    rw [Bool.and_eq_true, HasPrefix_iff, Bool.not_eq_true', ← Bool.not_eq_true, Contains_iff]
    exact ⟨⟨ws1 ++ name ++ ws2, by simp⟩, fun h => hsent (sentinel_in_name ws1 name ws2 hws1 hws2 h)⟩
  simp only [GetTargetSpace, hcall, if_neg hlen, index_of_getElem? output 4 _ hl4, if_pos hcond]
  have hval : TrimSpace (TrimPrefix (TrimSpace ⟨"Space:".data ++ ws1 ++ name ++ ws2⟩) "Space:")
      = ⟨name⟩ := by
    cases name with
    | nil =>
      have h1 : TrimSpace ⟨"Space:".data ++ ws1 ++ [] ++ ws2⟩ = ⟨"Space:".data⟩ := by
        have := TrimSpace_padded [] "Space:".data (ws1 ++ ws2) (by simp)
          (by
            intro c hc
            rcases List.mem_append.mp hc with hc | hc
            · exact hws1 c hc
            · exact hws2 c hc)
          (by decide) (by decide)
        simpa [List.append_assoc] using this
      rw [h1]
      decide
    | cons a l =>
      have h1 : TrimSpace ⟨"Space:".data ++ ws1 ++ (a :: l) ++ ws2⟩
          = ⟨"Space:".data ++ (ws1 ++ (a :: l))⟩ := by
        have := TrimSpace_padded [] ("Space:".data ++ (ws1 ++ (a :: l))) ws2 (by simp) hws2
          (by intro c hc; cases hc; decide)
          (by
            intro c hc
            apply hlast c
            rw [List.getLast?_append_of_ne_nil _ (by simp),
              List.getLast?_append_of_ne_nil _ (by simp)] at hc
            exact hc)
        simpa [List.append_assoc] using this
      rw [h1]
      have h2 : TrimPrefix ⟨"Space:".data ++ (ws1 ++ (a :: l))⟩ "Space:" = ⟨ws1 ++ (a :: l)⟩ :=
        TrimPrefix_append "Space:".data (ws1 ++ (a :: l))
      rw [h2]
      have := TrimSpace_padded ws1 (a :: l) [] hws1 (by simp) hhead hlast
      simpa using this
  rw [hval]

theorem GetTargetSpace_padded_witness :
    sample.cli.CliCommandWithoutTerminalOutput ["target"]
        [(["", "", "", "", "Space:  my-space  "], none)]
      = ((["", "", "", "", "Space:  my-space  "], none), []) ∧
    GetTargetSpace sample [(["", "", "", "", "Space:  my-space  "], none)]
      = (.ret ("my-space", none, []), []) :=
  ⟨rfl, GetTargetSpace_padded sample [(["", "", "", "", "Space:  my-space  "], none)] []
    ["", "", "", "", "Space:  my-space  "] "  ".data "my-space".data "  ".data rfl rfl
    (by decide) (by decide) (by decide) (by decide) (by decide)⟩

/-! ## FindDomain -/

theorem TrimSuffix_append (x p : List Char) : TrimSuffix ⟨x ++ p⟩ ⟨p⟩ = ⟨x⟩ := by
  have h : HasSuffix ⟨x ++ p⟩ ⟨p⟩ = true := (HasSuffix_iff _ _).mpr ⟨x, rfl⟩
  simp [TrimSuffix, h]

theorem TrimSuffix_of_not_suffix (s suf : String) (h : ¬ suf.data <:+ s.data) :
    TrimSuffix s suf = s := by
  have h1 : ¬ HasSuffix s suf = true := fun hs => h ((HasSuffix_iff _ _).mp hs)
  simp [TrimSuffix, h1]

/-- A list that ends with white space has no suffix that ends with `d`. -/
theorem not_suffix_of_space_last (l p : List Char) (c : Char) (hl : l.getLast? = some c)
    (hc : isSpace c = true) : ¬ p ++ ['d'] <:+ l := by
  rintro ⟨t, rfl⟩
  rw [← List.append_assoc, List.getLast?_concat] at hl
  cases hl
  revert hc; decide

theorem all_space_append (a b : List Char) (ha : ∀ c ∈ a, isSpace c = true)
    (hb : ∀ c ∈ b, isSpace c = true) : ∀ c ∈ a ++ b, isSpace c = true := by
  intro c hc
  rcases List.mem_append.mp hc with hc | hc
  · exact ha c hc
  · exact hb c hc

/-- The value `FindDomain` computes from a line made of white space, a name
without white space, white space, the tag `shared` or `owned`, white space. -/
theorem domain_of_line (ws0 d sp tag ws2 : List Char)
    (hd : ∀ c ∈ d, isSpace c = false) (hne : sp ≠ []) (hsp : ∀ c ∈ sp, isSpace c = true)
    (htag : tag = "shared".data ∨ tag = "owned".data)
    (hws0 : ∀ c ∈ ws0, isSpace c = true) (hws2 : ∀ c ∈ ws2, isSpace c = true) :
    TrimSpace (TrimSuffix (TrimSuffix (TrimSpace ⟨ws0 ++ d ++ sp ++ tag ++ ws2⟩) "shared") "owned")
      = ⟨d⟩ := by
  have htl : tag.getLast? = some 'd' := by
    rcases htag with rfl | rfl <;> rfl
  have hth : ∀ c, tag.head? = some c → isSpace c = false := by
    rcases htag with rfl | rfl <;> (intro c hc; cases hc; decide)
  have htne : tag ≠ [] := by
    rcases htag with rfl | rfl <;> simp
  cases d with
  | nil =>
    have h1 : TrimSpace ⟨ws0 ++ [] ++ sp ++ tag ++ ws2⟩ = ⟨tag⟩ := by
      have := TrimSpace_padded (ws0 ++ sp) tag ws2 (all_space_append ws0 sp hws0 hsp) hws2 hth
        (by intro c hc; rw [htl] at hc; cases hc; decide)
      simpa [List.append_assoc] using this
    rw [h1]
    rcases htag with rfl | rfl <;> decide
  | cons a l =>
    have hlastd : ∀ c, (a :: l).getLast? = some c → isSpace c = false := by
      intro c hc
      exact hd c (List.mem_of_mem_getLast? hc)
    have h1 : TrimSpace ⟨ws0 ++ (a :: l) ++ sp ++ tag ++ ws2⟩ = ⟨((a :: l) ++ sp) ++ tag⟩ := by
      have := TrimSpace_padded ws0 (((a :: l) ++ sp) ++ tag) ws2 hws0 hws2
        (by intro c hc; cases hc; exact hd a (List.mem_cons_self a l))
        (by
          intro c hc
          rw [List.getLast?_append_of_ne_nil _ htne, htl] at hc
          cases hc; decide)
      simpa [List.append_assoc] using this
    rw [h1]
    obtain ⟨s, hs⟩ : ∃ s, ((a :: l) ++ sp).getLast? = some s ∧ isSpace s = true := by
      rw [List.getLast?_append_of_ne_nil _ hne]
      cases hq : sp.getLast? with
      | none => exact absurd (List.getLast?_eq_none_iff.mp hq) hne
      | some s => exact ⟨s, rfl, hsp s (List.mem_of_mem_getLast? hq)⟩
    have h3 : TrimSuffix (TrimSuffix ⟨((a :: l) ++ sp) ++ tag⟩ "shared") "owned"
        = ⟨(a :: l) ++ sp⟩ := by
      rcases htag with rfl | rfl
      · have e1 : TrimSuffix ⟨((a :: l) ++ sp) ++ "shared".data⟩ "shared" = ⟨(a :: l) ++ sp⟩ :=
          TrimSuffix_append ((a :: l) ++ sp) "shared".data
        rw [e1]
        exact TrimSuffix_of_not_suffix _ _
          (not_suffix_of_space_last ((a :: l) ++ sp) "owne".data s hs.1 hs.2)
      · have e1 : TrimSuffix ⟨((a :: l) ++ sp) ++ "owned".data⟩ "shared"
            = ⟨((a :: l) ++ sp) ++ "owned".data⟩ := by
          apply TrimSuffix_of_not_suffix
          intro hsuf
          have h5 : "owned".data <:+ "shared".data :=
            List.suffix_of_suffix_length_le (List.suffix_append _ _) hsuf (by decide)
          revert h5; decide
        rw [e1]
        exact TrimSuffix_append ((a :: l) ++ sp) "owned".data
    rw [h3]
    have := TrimSpace_padded [] (a :: l) sp (by simp) hsp
      (by intro c hc; cases hc; exact hd a (List.mem_cons_self a l)) hlastd
    simpa using this

/-- C6: when the connection reports no error, `FindDomain` fails with
`No domain available` (and hands back the captured lines) exactly when the
listing has fewer than 3 lines, and otherwise returns a value with no error and
no lines; when the line at index 2 is a name `d` without white space, one or
more white-space characters and the tag `shared` or `owned`, the whole possibly
with white space before and after, the value is exactly `d`. -/
theorem FindDomain_domain {σ : Type} (u : Utils σ) (w w1 : σ) (output : List String)
    (hcall : u.cli.CliCommandWithoutTerminalOutput ["domains"] w = ((output, none), w1)) :
    (output.length < 3 →
      FindDomain u w = (.ret ("", some (.new "No domain available"), output), w1)) ∧
    (¬ output.length < 3 → ∃ v, FindDomain u w = (.ret (v, none, []), w1)) ∧
    (∀ ws0 d sp tag ws2 : List Char,
      output[2]? = some ⟨ws0 ++ d ++ sp ++ tag ++ ws2⟩ →
      (∀ c ∈ d, isSpace c = false) → sp ≠ [] → (∀ c ∈ sp, isSpace c = true) →
      (tag = "shared".data ∨ tag = "owned".data) →
      (∀ c ∈ ws0, isSpace c = true) → (∀ c ∈ ws2, isSpace c = true) →
      FindDomain u w = (.ret (⟨d⟩, none, []), w1)) := by
  refine ⟨fun hlen => ?_, fun hlen => ?_, ?_⟩
  · simp only [FindDomain, hcall, if_pos hlen]
  · obtain ⟨l2, hl2⟩ : ∃ l2, output[2]? = some l2 :=
      ⟨output.get ⟨2, by omega⟩, by simp [List.getElem?_eq_getElem (show 2 < output.length by omega)]⟩
    simp only [FindDomain, hcall, if_neg hlen, index_of_getElem? output 2 l2 hl2]
    exact ⟨_, rfl⟩
  · intro ws0 d sp tag ws2 hl2 hd hne hsp htag hws0 hws2
    have hlen : ¬ output.length < 3 := by
      have := length_of_getElem? output 2 _ hl2
      omega
    simp only [FindDomain, hcall, if_neg hlen, index_of_getElem? output 2 _ hl2]
    rw [domain_of_line ws0 d sp tag ws2 hd hne hsp htag hws0 hws2]

theorem FindDomain_domain_witness :
    sample.cli.CliCommandWithoutTerminalOutput ["domains"] [(["", "", "example.com   shared"], none)]
      = ((["", "", "example.com   shared"], none), []) ∧
    FindDomain sample [(["", "", "example.com   shared"], none)]
      = (.ret ("example.com", none, []), []) :=
  ⟨rfl, (FindDomain_domain sample [(["", "", "example.com   shared"], none)] []
    ["", "", "example.com   shared"] rfl).2.2 [] "example.com".data "   ".data "shared".data []
    rfl (by decide) (by decide) (by decide) (Or.inl rfl) (by simp) (by simp)⟩

/-! ## GetAppGuid and the failure marker -/

/-- C1, as stated, fails: with the marker `FAILED` in the output and no error
from the connection `GetAppGuid` returns the trimmed first line as a success,
and with the marker on the second line only it returns the error of the
connection. -/
theorem GetAppGuid_marker_not_notFound :
    ((∃ line ∈ ["FAILED"], Contains line "FAILED" = true) ∧
      GetAppGuid sample "my-app" [(["FAILED"], none)] = (.ret ("FAILED", none, []), [])) ∧
    ((∃ line ∈ ["", "FAILED"], Contains line "FAILED" = true) ∧
      GetAppGuid sample "my-app" [(["", "FAILED"], some "exit status 1")]
        = (.ret ("", some (.cli "exit status 1"), ["", "FAILED"]), [])) :=
  ⟨⟨⟨"FAILED", by simp, by decide⟩, by decide⟩, ⟨⟨"FAILED", by simp, by decide⟩, by decide⟩⟩

/-- C1, amended: when the connection reports an error and the first captured
line contains `FAILED`, `GetAppGuid` returns the empty string, the error
`App <name> not found.` made by `errors.New` (not the error of the connection)
and the captured lines. -/
theorem GetAppGuid_notFound {σ : Type} (u : Utils σ) (appName : String) (w w1 : σ)
    (r0 : String) (rest : List String) (err : String)
    (hcall : u.cli.CliCommandWithoutTerminalOutput ["app", appName, "--guid"] w
      = ((r0 :: rest, some err), w1))
    (hmark : Contains r0 "FAILED" = true) :
    GetAppGuid u appName w
      = (.ret ("", some (.new ("App " ++ appName ++ " not found.")), r0 :: rest), w1) := by
  simp [GetAppGuid, hcall, index_cons_zero, hmark]

theorem GetAppGuid_notFound_witness :
    sample.cli.CliCommandWithoutTerminalOutput ["app", "my-app", "--guid"]
        [(["FAILED", "App my-app not found"], some "exit status 1")]
      = ((["FAILED", "App my-app not found"], some "exit status 1"), []) ∧
    Contains "FAILED" "FAILED" = true ∧
    GetAppGuid sample "my-app" [(["FAILED", "App my-app not found"], some "exit status 1")]
      = (.ret ("", some (.new "App my-app not found."), ["FAILED", "App my-app not found"]), []) :=
  ⟨rfl, by decide,
    GetAppGuid_notFound sample "my-app" _ [] "FAILED" ["App my-app not found"] "exit status 1"
      rfl (by decide)⟩

/-! ## UpdateApp -/

/-- C7: `UpdateApp` issues exactly one call, without terminal output, whose
arguments are `curl /v2/apps/<appGuid> -X PUT -d <body>`; the body is an opening
brace and a quote, the characters of `field` as they are, the three characters
quote, colon, quote, the characters of `value` as they are, and a quote and a
closing brace; the lines and the error of the call are returned unchanged. For
`("app1", "name", "new-name")` the body is `{"name":"new-name"}`. -/
theorem UpdateApp_single_put {σ : Type} (u : Utils σ) (appGuid field value : String)
    (w : σ) (log : List Call) :
    (∃ body : String,
      body.data = ['\x7b', '"'] ++ field.data ++ ['"', ':', '"'] ++ value.data ++ ['"', '\x7d'] ∧
      (UpdateApp (spy u) appGuid field value (w, log)).2.2
        = log ++ [⟨false, ["curl", "/v2/apps/" ++ appGuid, "-X", "PUT", "-d", body]⟩] ∧
      ∀ lines err w1,
        u.cli.CliCommandWithoutTerminalOutput
            ["curl", "/v2/apps/" ++ appGuid, "-X", "PUT", "-d", body] w = ((lines, err), w1) →
        UpdateApp u appGuid field value w = ((lines, err.map GoError.cli), w1)) ∧
    (UpdateApp (spy sample) "app1" "name" "new-name" ([], [])).2.2
      = [⟨false, ["curl", "/v2/apps/app1", "-X", "PUT", "-d", "\x7b\"name\":\"new-name\"\x7d"]⟩] := by
  refine ⟨⟨"\x7b\"" ++ field ++ "\":\"" ++ value ++ "\"\x7d", ?_, rfl, ?_⟩, by decide⟩
  · simp [String.data_append]
  · intro lines err w1 h
    simp [UpdateApp, passOn, h]

theorem UpdateApp_single_put_witness :
    (UpdateApp (spy sample) "app1" "name" "new-name" ([([], some "exit status 1")], [])).2.2
      = [⟨false, ["curl", "/v2/apps/app1", "-X", "PUT", "-d", "\x7b\"name\":\"new-name\"\x7d"]⟩] ∧
    UpdateApp sample "app1" "name" "new-name" [(["OK"], some "exit status 1")]
      = ((["OK"], some (.cli "exit status 1")), []) := by
  obtain ⟨⟨body, hbody, hlog, hret⟩, -⟩ :=
    UpdateApp_single_put sample "app1" "name" "new-name" [(["OK"], some "exit status 1")] []
  exact ⟨by decide, hret ["OK"] (some "exit status 1") [] rfl⟩

/-! ## Which method of the connection an operation uses -/

theorem Quiet.single (log : List Call) (args : List String) :
    Quiet log (log ++ [⟨false, args⟩]) :=
  ⟨[⟨false, args⟩], rfl, by simp⟩

theorem Quiet.trans {l1 l2 l3 : List Call} (h12 : Quiet l1 l2) (h23 : Quiet l2 l3) :
    Quiet l1 l3 := by
  obtain ⟨c1, rfl, h1⟩ := h12
  obtain ⟨c2, rfl, h2⟩ := h23
  refine ⟨c1 ++ c2, by simp, ?_⟩
  intro c hc
  rcases List.mem_append.mp hc with h | h
  · exact h1 c h
  · exact h2 c h

theorem detachLoop_quiet {σ : Type} (u : Utils σ) (appGuid : String) (routes : List Route) :
    ∀ (w : σ) (log : List Call), Quiet log (detachLoop (spy u) appGuid routes (w, log)).2.2 := by
  induction routes with
  | nil => intro w log; exact ⟨[], by simp [detachLoop], by simp⟩
  | cons r rs ih =>
    intro w log
    rcases h : u.cli.CliCommandWithoutTerminalOutput (deleteArgs appGuid r) w with ⟨⟨out, err⟩, w1⟩
    cases err with
    | some e =>
      simpa [detachLoop, spy, recording, h] using Quiet.single log (deleteArgs appGuid r)
    | none =>
      have h1 := ih w1 (log ++ [⟨false, deleteArgs appGuid r⟩])
      have h2 : (detachLoop (spy u) appGuid (r :: rs) (w, log))
          = detachLoop (spy u) appGuid rs (w1, log ++ [⟨false, deleteArgs appGuid r⟩]) := by
        simp [detachLoop, spy, recording, h]
      rw [h2]
      exact (Quiet.single log _).trans h1

/-- C8: `StartApp` issues exactly one call, `start <appName>` through
`CliCommand` (terminal output shown), and returns its lines and error
unchanged; `CreateRoute` and `MapRoute` issue exactly one call through
`CliCommandWithoutTerminalOutput` and return its lines and error unchanged; and
every call of `GetAppGuid`, `GetTargetSpace`, `GetSpaceGuid`, `FindDomain`,
`GetHealthCheck`, `DetachAppRoutes` and `UpdateApp` goes through
`CliCommandWithoutTerminalOutput`. -/
theorem StartApp_only_terminal_output {σ : Type} (u : Utils σ) (w : σ) (log : List Call)
    (a b c : String) :
    ((StartApp (spy u) a (w, log)).2.2 = log ++ [⟨true, ["start", a]⟩] ∧
      StartApp u a w = (((u.cli.CliCommand ["start", a] w).1.1,
        (u.cli.CliCommand ["start", a] w).1.2.map GoError.cli), (u.cli.CliCommand ["start", a] w).2)) ∧
    ((CreateRoute (spy u) a b c (w, log)).2.2 = log ++ [⟨false, ["create-route", a, b, "-n", c]⟩] ∧
      CreateRoute u a b c w
        = (((u.cli.CliCommandWithoutTerminalOutput ["create-route", a, b, "-n", c] w).1.1,
          (u.cli.CliCommandWithoutTerminalOutput ["create-route", a, b, "-n", c] w).1.2.map
            GoError.cli),
          (u.cli.CliCommandWithoutTerminalOutput ["create-route", a, b, "-n", c] w).2)) ∧
    ((MapRoute (spy u) a b c (w, log)).2.2 = log ++ [⟨false, ["map-route", a, b, "-n", c]⟩] ∧
      MapRoute u a b c w
        = (((u.cli.CliCommandWithoutTerminalOutput ["map-route", a, b, "-n", c] w).1.1,
          (u.cli.CliCommandWithoutTerminalOutput ["map-route", a, b, "-n", c] w).1.2.map
            GoError.cli),
          (u.cli.CliCommandWithoutTerminalOutput ["map-route", a, b, "-n", c] w).2)) ∧
    Quiet log (GetAppGuid (spy u) a (w, log)).2.2 ∧
    Quiet log (GetTargetSpace (spy u) (w, log)).2.2 ∧
    Quiet log (GetSpaceGuid (spy u) a (w, log)).2.2 ∧
    Quiet log (FindDomain (spy u) (w, log)).2.2 ∧
    Quiet log (GetHealthCheck (spy u) a (w, log)).2.2 ∧
    Quiet log (DetachAppRoutes (spy u) a (w, log)).2.2 ∧
    Quiet log (UpdateApp (spy u) a b c (w, log)).2.2 := by
  refine ⟨⟨rfl, rfl⟩, ⟨rfl, rfl⟩, ⟨rfl, rfl⟩, ?_, ?_, ?_, ?_, ?_, ?_, Quiet.single log _⟩
  · rcases h : u.cli.CliCommandWithoutTerminalOutput ["app", a, "--guid"] w with
      ⟨⟨_ | ⟨o0, rest⟩, _ | e⟩, w1⟩ <;>
    simp only [GetAppGuid, spy, recording, h, index_nil, index_cons_zero] <;>
    first
      | exact Quiet.single log _
      | (split <;> exact Quiet.single log _)
  · rcases h : u.cli.CliCommandWithoutTerminalOutput ["target"] w with ⟨⟨out, _ | e⟩, w1⟩ <;>
    simp only [GetTargetSpace, spy, recording, h]
    · split
      · exact Quiet.single log _
      · split
        · exact Quiet.single log _
        · split <;> exact Quiet.single log _
    · exact Quiet.single log _
  · rcases h : u.cli.CliCommandWithoutTerminalOutput ["space", a, "--guid"] w with
      ⟨⟨_ | ⟨o0, rest⟩, _ | e⟩, w1⟩ <;>
    simp only [GetSpaceGuid, spy, recording, h, index_nil, index_cons_zero] <;>
    first
      | exact Quiet.single log _
      | (split <;> exact Quiet.single log _)
  · rcases h : u.cli.CliCommandWithoutTerminalOutput ["domains"] w with ⟨⟨out, _ | e⟩, w1⟩ <;>
    simp only [FindDomain, spy, recording, h]
    · split
      · exact Quiet.single log _
      · split <;> exact Quiet.single log _
    · exact Quiet.single log _
  · rcases h : u.cli.CliCommandWithoutTerminalOutput ["curl", "/v2/apps/" ++ a ++ "/summary"] w with
      ⟨⟨_ | ⟨o0, rest⟩, _ | e⟩, w1⟩ <;>
    simp only [GetHealthCheck, spy, recording, h, index_nil, index_cons_zero]
    · exact Quiet.single log _
    · exact Quiet.single log _
    · split
      · exact Quiet.single log _
      · split <;> exact Quiet.single log _
    · exact Quiet.single log _
  · rcases h : u.cli.CliCommandWithoutTerminalOutput ["curl", "/v2/apps/" ++ a ++ "/summary"] w with
      ⟨⟨_ | ⟨o0, rest⟩, _ | e⟩, w1⟩ <;>
    simp only [DetachAppRoutes, spy, recording, h, index_nil, index_cons_zero]
    · exact Quiet.single log _
    · exact Quiet.single log _
    · split
      · exact Quiet.single log _
      · exact (Quiet.single log _).trans (detachLoop_quiet u a _ w1 _)
    · exact Quiet.single log _

/-! ## The error surface of the look-ups -/

/-- C9: whenever `GetAppGuid`, `GetTargetSpace`, `GetSpaceGuid`, `FindDomain` or
`GetHealthCheck` returns, either the error is absent and the lines are empty, or
the error is present, the value is the empty string and the lines are those
captured from the call on the connection. -/
theorem lookup_error_surface {σ : Type} (u : Utils σ) (a : String) (w : σ)
    (v : String) (e : Option GoError) (l : List String) :
    ((GetAppGuid u a w).1 = .ret (v, e, l) →
      ErrorSurface (u.cli.CliCommandWithoutTerminalOutput ["app", a, "--guid"] w).1.1 v e l) ∧
    ((GetTargetSpace u w).1 = .ret (v, e, l) →
      ErrorSurface (u.cli.CliCommandWithoutTerminalOutput ["target"] w).1.1 v e l) ∧
    ((GetSpaceGuid u a w).1 = .ret (v, e, l) →
      ErrorSurface (u.cli.CliCommandWithoutTerminalOutput ["space", a, "--guid"] w).1.1 v e l) ∧
    ((FindDomain u w).1 = .ret (v, e, l) →
      ErrorSurface (u.cli.CliCommandWithoutTerminalOutput ["domains"] w).1.1 v e l) ∧
    ((GetHealthCheck u a w).1 = .ret (v, l, e) →
      ErrorSurface
        (u.cli.CliCommandWithoutTerminalOutput ["curl", "/v2/apps/" ++ a ++ "/summary"] w).1.1
        v e l) := by
  refine ⟨?_, ?_, ?_, ?_, ?_⟩
  · rcases h : u.cli.CliCommandWithoutTerminalOutput ["app", a, "--guid"] w with
      ⟨⟨_ | ⟨o0, rest⟩, _ | err⟩, w1⟩ <;>
    simp only [GetAppGuid, h, index_nil, index_cons_zero]
    · intro hr; cases hr
    · intro hr; cases hr
    · intro hr; cases hr; exact Or.inl ⟨rfl, rfl⟩
    · split <;> (intro hr; cases hr; exact Or.inr ⟨by simp, rfl, rfl⟩)
  · rcases h : u.cli.CliCommandWithoutTerminalOutput ["target"] w with ⟨⟨out, _ | err⟩, w1⟩ <;>
    simp only [GetTargetSpace, h]
    · split
      · intro hr; cases hr; exact Or.inr ⟨by simp, rfl, rfl⟩
      · split
        · intro hr; cases hr
        · split
          · intro hr; cases hr; exact Or.inl ⟨rfl, rfl⟩
          · intro hr; cases hr; exact Or.inr ⟨by simp, rfl, rfl⟩
    · intro hr; cases hr; exact Or.inr ⟨by simp, rfl, rfl⟩
  · rcases h : u.cli.CliCommandWithoutTerminalOutput ["space", a, "--guid"] w with
      ⟨⟨_ | ⟨o0, rest⟩, _ | err⟩, w1⟩ <;>
    simp only [GetSpaceGuid, h, index_nil, index_cons_zero]
    · intro hr; cases hr
    · intro hr; cases hr
    · intro hr; cases hr; exact Or.inl ⟨rfl, rfl⟩
    · split <;> (intro hr; cases hr; exact Or.inr ⟨by simp, rfl, rfl⟩)
  · rcases h : u.cli.CliCommandWithoutTerminalOutput ["domains"] w with ⟨⟨out, _ | err⟩, w1⟩ <;>
    simp only [FindDomain, h]
    · split
      · intro hr; cases hr; exact Or.inr ⟨by simp, rfl, rfl⟩
      · split
        · intro hr; cases hr
        · intro hr; cases hr; exact Or.inl ⟨rfl, rfl⟩
    · intro hr; cases hr; exact Or.inr ⟨by simp, rfl, rfl⟩
  · rcases h : u.cli.CliCommandWithoutTerminalOutput ["curl", "/v2/apps/" ++ a ++ "/summary"] w with
      ⟨⟨_ | ⟨o0, rest⟩, _ | err⟩, w1⟩ <;>
    simp only [GetHealthCheck, h, index_nil, index_cons_zero]
    · intro hr; cases hr
    · intro hr; cases hr; exact Or.inr ⟨by simp, rfl, rfl⟩
    · split
      · intro hr; cases hr; exact Or.inr ⟨by simp, rfl, rfl⟩
      · split
        · intro hr; cases hr; exact Or.inr ⟨by simp, rfl, rfl⟩
        · intro hr; cases hr; exact Or.inl ⟨rfl, rfl⟩
    · intro hr; cases hr; exact Or.inr ⟨by simp, rfl, rfl⟩

theorem lookup_error_surface_witness :
    ErrorSurface ["FAILED"] "" (some (.new "App a not found.")) ["FAILED"] ∧
    ErrorSurface ["", "", "", "", "Space:  my-space  "] "my-space" none [] ∧
    ErrorSurface ["oops"] "" (some (.cli "exit status 1")) ["oops"] ∧
    ErrorSurface ["", ""] "" (some (.new "No domain available")) ["", ""] ∧
    ErrorSurface [compactPayload] "" (some (.new flagNotFound)) [compactPayload] :=
  ⟨(lookup_error_surface sample "a" [(["FAILED"], some "exit status 1")] _ _ _).1 rfl,
    (lookup_error_surface sample "a" [(["", "", "", "", "Space:  my-space  "], none)]
      _ _ _).2.1 (by decide),
    (lookup_error_surface sample "a" [(["oops"], some "exit status 1")] _ _ _).2.2.1 rfl,
    (lookup_error_surface sample "a" [(["", ""], none)] _ _ _).2.2.2.1 rfl,
    (lookup_error_surface sample "a" [([compactPayload], none)] _ _ _).2.2.2.2 (by decide)⟩

/-! ## Index safety -/

/-- C10: `GetTargetSpace` and `FindDomain` never index the captured lines out of
range, whatever the connection replies; `GetAppGuid` and `GetSpaceGuid` panic on
`output[0]` exactly when the captured lines are empty, with or without an error
from the connection; `GetHealthCheck` and `DetachAppRoutes` panic on `output[0]`
exactly when the summary call reports no error and its captured lines are
empty. -/
theorem index_safety {σ : Type} (u : Utils σ) (a : String) (w : σ) :
    (∀ i n, (GetTargetSpace u w).1 ≠ .indexOutOfRange i n) ∧
    (∀ i n, (FindDomain u w).1 ≠ .indexOutOfRange i n) ∧
    ((∃ i n, (GetAppGuid u a w).1 = .indexOutOfRange i n) ↔
      (u.cli.CliCommandWithoutTerminalOutput ["app", a, "--guid"] w).1.1 = []) ∧
    ((∃ i n, (GetSpaceGuid u a w).1 = .indexOutOfRange i n) ↔
      (u.cli.CliCommandWithoutTerminalOutput ["space", a, "--guid"] w).1.1 = []) ∧
    ((∃ i n, (GetHealthCheck u a w).1 = .indexOutOfRange i n) ↔
      (u.cli.CliCommandWithoutTerminalOutput ["curl", "/v2/apps/" ++ a ++ "/summary"] w).1.2 = none ∧
      (u.cli.CliCommandWithoutTerminalOutput ["curl", "/v2/apps/" ++ a ++ "/summary"] w).1.1 = []) ∧
    ((∃ i n, (DetachAppRoutes u a w).1 = .indexOutOfRange i n) ↔
      (u.cli.CliCommandWithoutTerminalOutput ["curl", "/v2/apps/" ++ a ++ "/summary"] w).1.2 = none ∧
      (u.cli.CliCommandWithoutTerminalOutput ["curl", "/v2/apps/" ++ a ++ "/summary"] w).1.1 = []) := by
  refine ⟨?_, ?_, ?_, ?_, ?_, ?_⟩
  · intro i n
    rcases h : u.cli.CliCommandWithoutTerminalOutput ["target"] w with ⟨⟨out, _ | err⟩, w1⟩ <;>
    simp only [GetTargetSpace, h]
    · split
      · simp
      · rename_i hlen
        rw [index_of_lt out 4 (by omega)]
        simp only []
        split <;> simp
    · simp
  · intro i n
    rcases h : u.cli.CliCommandWithoutTerminalOutput ["domains"] w with ⟨⟨out, _ | err⟩, w1⟩ <;>
    simp only [FindDomain, h]
    · split
      · simp
      · rename_i hlen
        rw [index_of_lt out 2 (by omega)]
        simp
    · simp
  · rcases h : u.cli.CliCommandWithoutTerminalOutput ["app", a, "--guid"] w with
      ⟨⟨_ | ⟨o0, rest⟩, _ | err⟩, w1⟩ <;>
    simp only [GetAppGuid, h, index_nil, index_cons_zero]
    · simp
    · simp
    · simp
    · split <;> simp
  · rcases h : u.cli.CliCommandWithoutTerminalOutput ["space", a, "--guid"] w with
      ⟨⟨_ | ⟨o0, rest⟩, _ | err⟩, w1⟩ <;>
    simp only [GetSpaceGuid, h, index_nil, index_cons_zero]
    · simp
    · simp
    · simp
    · split <;> simp
  · rcases h : u.cli.CliCommandWithoutTerminalOutput ["curl", "/v2/apps/" ++ a ++ "/summary"] w with
      ⟨⟨_ | ⟨o0, rest⟩, _ | err⟩, w1⟩ <;>
    simp only [GetHealthCheck, h, index_nil, index_cons_zero]
    · simp
    · simp
    · split
      · simp
      · split <;> simp
    · simp
  · rcases h : u.cli.CliCommandWithoutTerminalOutput ["curl", "/v2/apps/" ++ a ++ "/summary"] w with
      ⟨⟨_ | ⟨o0, rest⟩, _ | err⟩, w1⟩ <;>
    simp only [DetachAppRoutes, h, index_nil, index_cons_zero]
    · simp
    · simp
    · split <;> simp
    · simp

/-! ## GetHealthCheck -/

/-- C2, as stated, fails: the payload without white space is a JSON object whose
field `health_check_type` is the string `http`, yet `GetHealthCheck` returns the
empty string, the captured lines and the error that the flag is not found,
because the payload does not contain the marker `"health_check_type": ` with a
space after the colon. -/
theorem GetHealthCheck_compact_rejected :
    compactPayload =
      "\x7b\"health_check_type\":\"http\",\"routes\":[\x7b\"guid\":\"r1\"\x7d,\x7b\"guid\":\"r2\"\x7d]\x7d" ∧
    sampleUnmarshal compactPayload = .ok ⟨"http", [⟨"r1"⟩, ⟨"r2"⟩]⟩ ∧
    GetHealthCheck sample "app1" [([compactPayload], none)]
      = (.ret ("", [compactPayload], some (.new flagNotFound)), []) :=
  ⟨rfl, rfl, by decide⟩

/-- C2, amended: when the summary call reports no error, its first line contains
the marker `"health_check_type": ` (the quoted field name, a colon and a space)
and `json.Unmarshal` decodes that line to a summary, `GetHealthCheck` returns
the health-check type of the summary, with no lines and no error. -/
theorem GetHealthCheck_type {σ : Type} (u : Utils σ) (appGuid : String) (w w1 : σ)
    (o0 : String) (rest : List String) (summary : AppSummary)
    (hcall : u.cli.CliCommandWithoutTerminalOutput
      ["curl", "/v2/apps/" ++ appGuid ++ "/summary"] w = ((o0 :: rest, none), w1))
    (hmark : "\"health_check_type\": ".data <:+: o0.data)
    (hjson : u.unmarshal o0 = .ok summary) :
    GetHealthCheck u appGuid w = (.ret (summary.HealthCheckType, [], none), w1) := by
  have hc : Contains o0 "\"health_check_type\": " = true := (Contains_iff _ _).mpr hmark
  simp [GetHealthCheck, hcall, index_cons_zero, hc, hjson]

theorem GetHealthCheck_type_witness :
    sample.cli.CliCommandWithoutTerminalOutput ["curl", "/v2/apps/" ++ "app1" ++ "/summary"]
        [([spacedPayload], none)] = (([spacedPayload], none), []) ∧
    "\"health_check_type\": ".data <:+: spacedPayload.data ∧
    sample.unmarshal spacedPayload = .ok ⟨"http", [⟨"r1"⟩, ⟨"r2"⟩]⟩ ∧
    GetHealthCheck sample "app1" [([spacedPayload], none)] = (.ret ("http", [], none), []) :=
  have hmark : "\"health_check_type\": ".data <:+: spacedPayload.data :=
    ⟨"\x7b".data, "\"http\", \"routes\": [\x7b\"guid\": \"r1\"\x7d, \x7b\"guid\": \"r2\"\x7d]\x7d".data, rfl⟩
  ⟨rfl, hmark, rfl,
    GetHealthCheck_type sample "app1" [([spacedPayload], none)] [] spacedPayload []
      ⟨"http", [⟨"r1"⟩, ⟨"r2"⟩]⟩ rfl hmark rfl⟩

/-! ## DetachAppRoutes -/

theorem detachLoop_all {σ : Type} (u : Utils σ) (appGuid : String) (rs : List Route) :
    ∀ (w : σ) (log : List Call), DeletesSucceed u appGuid rs w →
      detachLoop (spy u) appGuid rs (w, log)
        = (([], none), (afterDeletes u appGuid rs w, log ++ rs.map (deleteCall appGuid))) := by
  induction rs with
  | nil => intro w log _; simp [detachLoop, afterDeletes]
  | cons r rs ih =>
    intro w log hs
    obtain ⟨h1, h2⟩ := hs
    rcases h : u.cli.CliCommandWithoutTerminalOutput (deleteArgs appGuid r) w with ⟨⟨out, err⟩, w1⟩
    rw [h] at h1 h2
    simp only at h1 h2
    subst h1
    have e : detachLoop (spy u) appGuid (r :: rs) (w, log)
        = detachLoop (spy u) appGuid rs (w1, log ++ [deleteCall appGuid r]) := by
      simp [detachLoop, spy, recording, h, deleteCall]
    rw [e, ih w1 _ h2]
    simp [afterDeletes, h]

theorem detachLoop_first_failure {σ : Type} (u : Utils σ) (appGuid : String) (r : Route)
    (post : List Route) (out : List String) (e : String) (w2 : σ) (pre : List Route) :
    ∀ (w : σ) (log : List Call), DeletesSucceed u appGuid pre w →
      u.cli.CliCommandWithoutTerminalOutput (deleteArgs appGuid r) (afterDeletes u appGuid pre w)
        = ((out, some e), w2) →
      detachLoop (spy u) appGuid (pre ++ r :: post) (w, log)
        = ((out, some (.cli e)), (w2, log ++ (pre ++ [r]).map (deleteCall appGuid))) := by
  induction pre with
  | nil =>
    intro w log _ hr
    simp only [afterDeletes] at hr
    simp [detachLoop, spy, recording, hr, deleteCall]
  | cons p pre ih =>
    intro w log hs hr
    obtain ⟨h1, h2⟩ := hs
    rcases h : u.cli.CliCommandWithoutTerminalOutput (deleteArgs appGuid p) w with ⟨⟨o, err⟩, w1⟩
    simp only [afterDeletes, h] at hr
    rw [h] at h1 h2
    simp only at h1 h2
    subst h1
    have e1 : detachLoop (spy u) appGuid (p :: pre ++ r :: post) (w, log)
        = detachLoop (spy u) appGuid (pre ++ r :: post) (w1, log ++ [deleteCall appGuid p]) := by
      simp [detachLoop, spy, recording, h, deleteCall]
    rw [e1, ih w1 _ h2 hr]
    simp

/-- Either every delete call succeeds, or there is a first one that fails. -/
theorem deletes_succeed_or_fail {σ : Type} (u : Utils σ) (appGuid : String) (rs : List Route) :
    ∀ w : σ, DeletesSucceed u appGuid rs w ∨
      ∃ pre r post out e w2, rs = pre ++ r :: post ∧ DeletesSucceed u appGuid pre w ∧
        u.cli.CliCommandWithoutTerminalOutput (deleteArgs appGuid r) (afterDeletes u appGuid pre w)
          = ((out, some e), w2) := by
  induction rs with
  | nil => intro w; exact Or.inl trivial
  | cons r rs ih =>
    intro w
    rcases h : u.cli.CliCommandWithoutTerminalOutput (deleteArgs appGuid r) w with
      ⟨⟨out, _ | err⟩, w1⟩
    · rcases ih w1 with hs | ⟨pre, r1, post, out1, e, w2, hrs, hpre, hfail⟩
      · left
        exact ⟨by rw [h], by rw [h]; exact hs⟩
      · right
        refine ⟨r :: pre, r1, post, out1, e, w2, by rw [hrs]; rfl, ⟨by rw [h], by rw [h]; exact hpre⟩, ?_⟩
        simp only [afterDeletes, h]
        exact hfail
    · right
      exact ⟨[], r, rs, out, err, w1, rfl, trivial, h⟩

/-- C3: when the summary call reports no error and its first line decodes to a
summary with routes `r1 .. rn`, the calls `DetachAppRoutes` issues after the
summary call are the calls `curl /v2/routes/<ri.guid>/apps/<appGuid> -X DELETE`,
without terminal output, in the order of the array: all `n` of them when no
delete fails, the result then being no lines and no error; and otherwise those
up to and including the first delete that fails, the result then being the
lines and the error of that call, with no call for the routes after it. One of
the two cases always applies. -/
theorem DetachAppRoutes_calls {σ : Type} (u : Utils σ) (appGuid : String) (w w1 : σ)
    (log : List Call) (o0 : String) (rest : List String) (summary : AppSummary)
    (hcall : u.cli.CliCommandWithoutTerminalOutput
      ["curl", "/v2/apps/" ++ appGuid ++ "/summary"] w = ((o0 :: rest, none), w1))
    (hjson : u.unmarshal o0 = .ok summary) :
    (∀ r, deleteCall appGuid r
      = ⟨false, ["curl", "/v2/routes/" ++ r.Guid ++ "/apps/" ++ appGuid, "-X", "DELETE"]⟩) ∧
    (DeletesSucceed u appGuid summary.Routes w1 →
      DetachAppRoutes (spy u) appGuid (w, log)
        = (.ret ([], none), (afterDeletes u appGuid summary.Routes w1,
            log ++ ⟨false, ["curl", "/v2/apps/" ++ appGuid ++ "/summary"]⟩ ::
              summary.Routes.map (deleteCall appGuid)))) ∧
    (∀ pre r post out e w2, summary.Routes = pre ++ r :: post →
      DeletesSucceed u appGuid pre w1 →
      u.cli.CliCommandWithoutTerminalOutput (deleteArgs appGuid r) (afterDeletes u appGuid pre w1)
        = ((out, some e), w2) →
      DetachAppRoutes (spy u) appGuid (w, log)
        = (.ret (out, some (.cli e)), (w2,
            log ++ ⟨false, ["curl", "/v2/apps/" ++ appGuid ++ "/summary"]⟩ ::
              (pre ++ [r]).map (deleteCall appGuid)))) ∧
    (DeletesSucceed u appGuid summary.Routes w1 ∨
      ∃ pre r post out e w2, summary.Routes = pre ++ r :: post ∧
        DeletesSucceed u appGuid pre w1 ∧
        u.cli.CliCommandWithoutTerminalOutput (deleteArgs appGuid r)
          (afterDeletes u appGuid pre w1) = ((out, some e), w2)) := by
  have hrun : DetachAppRoutes (spy u) appGuid (w, log)
      = (.ret (detachLoop (spy u) appGuid summary.Routes
            (w1, log ++ [⟨false, ["curl", "/v2/apps/" ++ appGuid ++ "/summary"]⟩])).1,
          (detachLoop (spy u) appGuid summary.Routes
            (w1, log ++ [⟨false, ["curl", "/v2/apps/" ++ appGuid ++ "/summary"]⟩])).2) := by
    simp [DetachAppRoutes, spy, recording, hcall, index_cons_zero, hjson]
  refine ⟨fun _ => rfl, fun hs => ?_, ?_, deletes_succeed_or_fail u appGuid summary.Routes w1⟩
  · rw [hrun, detachLoop_all u appGuid summary.Routes w1 _ hs]
    simp
  · intro pre r post out e w2 hroutes hs hfail
    rw [hrun, hroutes, detachLoop_first_failure u appGuid r post out e w2 pre w1 _ hs hfail]
    simp

theorem DetachAppRoutes_calls_witness :
    sample.cli.CliCommandWithoutTerminalOutput ["curl", "/v2/apps/" ++ "app1" ++ "/summary"]
        [([compactPayload], none), (["boom"], some "exit status 1"), ([], none)]
      = (([compactPayload], none), [(["boom"], some "exit status 1"), ([], none)]) ∧
    sample.unmarshal compactPayload = .ok ⟨"http", [⟨"r1"⟩, ⟨"r2"⟩]⟩ ∧
    DetachAppRoutes (spy sample) "app1"
        ([([compactPayload], none), (["boom"], some "exit status 1"), ([], none)], [])
      = (.ret (["boom"], some (.cli "exit status 1")), ([([], none)],
          [⟨false, ["curl", "/v2/apps/app1/summary"]⟩,
            ⟨false, ["curl", "/v2/routes/r1/apps/app1", "-X", "DELETE"]⟩])) :=
  ⟨rfl, rfl,
    (DetachAppRoutes_calls sample "app1"
      [([compactPayload], none), (["boom"], some "exit status 1"), ([], none)]
      [(["boom"], some "exit status 1"), ([], none)] [] compactPayload []
      ⟨"http", [⟨"r1"⟩, ⟨"r2"⟩]⟩ rfl rfl).2.2.1
      [] ⟨"r1"⟩ [⟨"r2"⟩] ["boom"] "exit status 1" [([], none)] rfl trivial rfl⟩

end utils
